import Mathlib

/-!
# Verification of the VariantFeatures identity-normalization and merge engine

Shallow embedding of the core of the `kroncke-lab/VariantFeatures` repository:

* `variantfeatures/database.py` — the SQLite-backed upsert/merge engine
  (`VariantDB._upsert`, `upsert_missense`, `upsert_lof`) and the schema's
  uniqueness constraints and column defaults;
* `variantfeatures/fetchers/clinvar.py` — `parse_protein_change`,
  `REVIEW_STATUS_STARS`, `get_review_stars`;
* `variantfeatures/fetchers/alphamissense.py` — the compact single-letter
  substitution path of `fetch_alphamissense` that builds `hgvs_p`;
* `variantfeatures/fetchers/gnomad.py` — the per-variant exome/genome
  combination step of `fetch_gnomad`;
* `variantfeatures/fetchers/lof.py` — `predict_nmd_escape`.

Python floats are modelled as rationals (`ℚ`), SQLite timestamps as an
explicit `now : Nat` clock argument, and a SQLite row as its key columns
plus a total valuation of the remaining columns (a column never written
holds SQL `NULL`).
-/

namespace VariantFeatures

/-! ## Generic association-list lookup

Models Python `dict` lookup (`d.get(k)` / `d[k]`).  The dictionaries in the
source (keyword-argument feature sets, `AA_MAP`, `REVIEW_STATUS_STARS`) all
have pairwise-distinct keys, so first-match lookup is exact. -/

def alookup {α β : Type} [DecidableEq α] : List (α × β) → α → Option β
  | [], _ => none
  | (k, v) :: rest, c => if k = c then some v else alookup rest c

theorem alookup_mem {α β : Type} [DecidableEq α] {l : List (α × β)} {k : α} {v : β}
    (h : alookup l k = some v) : (k, v) ∈ l := by
  induction l with
  | nil => simp [alookup] at h
  | cons p rest ih =>
    obtain ⟨k', v'⟩ := p
    by_cases hk : k' = k
    · subst hk
      simp [alookup] at h
      simp [h]
    · simp [alookup, hk] at h
      exact List.mem_cons_of_mem _ (ih h)

theorem alookup_append_right {α β : Type} [DecidableEq α] (l₁ l₂ : List (α × β)) (k : α)
    (h : alookup l₁ k = none) : alookup (l₁ ++ l₂) k = alookup l₂ k := by
  induction l₁ with
  | nil => simp
  | cons p rest ih =>
    obtain ⟨k', v'⟩ := p
    by_cases hk : k' = k
    · subst hk; simp [alookup] at h
    · simp [alookup, hk] at h ⊢
      exact ih h

/-! ## SQLite data model (`database.py`)

A stored SQLite value is `NULL`, an `INTEGER`, a `REAL` (modelled as `ℚ`)
or `TEXT`. -/

inductive SQLiteValue where
  | null
  | integer (i : Int)
  | real (q : ℚ)
  | text (s : String)
deriving DecidableEq

/-- A feature set: the `**features` keyword arguments of an upsert call,
i.e. a Python dict mapping column name to value.  Keyword arguments have
pairwise-distinct keys. -/
abbrev FeatureSet := List (String × SQLiteValue)

/-- A row of `variants_missense` or `variants_lof`.  `gene` and `hgvs_p` are
the two key columns of the generic `VariantDB._upsert(table, gene, hgvs_p,
**features)` (for the LOF table the second key column is `hgvs_c`, passed in
the same position by `upsert_lof`).  `cols` is the valuation of every other
column: a column never supplied holds `SQLiteValue.null`, except for schema
defaults applied at insertion.  The provenance timestamps `created_at` /
`updated_at` are modelled apart; no caller ever supplies them in a feature
set. -/
structure VRow where
  gene : String
  hgvs_p : String
  cols : String → SQLiteValue
  created_at : Nat
  updated_at : Nat

/-- The columns of the secondary uniqueness constraint
`UNIQUE(chromosome, position, ref, alt, genome_build)` shared by
`variants_missense` and `variants_lof`. -/
def coordCols : List String := ["chromosome", "position", "ref", "alt", "genome_build"]

/-- Two rows collide on the secondary unique key.  SQLite treats `NULL`s as
distinct for `UNIQUE` constraints, so a collision requires all five
coordinate columns to be non-`NULL` and pairwise equal. -/
def coordConflict (r₁ r₂ : VRow) : Bool :=
  coordCols.all fun c => decide (r₁.cols c = r₂.cols c ∧ r₁.cols c ≠ SQLiteValue.null)

/-- The SQL `SET k = excluded.k` clause for every key of the feature set:
supplied columns take their supplied value, all others keep the previous
valuation. -/
def setCols (f : String → SQLiteValue) (fs : FeatureSet) : String → SQLiteValue :=
  fun c =>
    match alookup fs c with
    | some v => v
    | none => f c

/-- Column valuation of a freshly inserted row: unsupplied columns take the
schema defaults (`genome_build TEXT DEFAULT 'GRCh38'`, everything else
`NULL`). -/
def defaultCols : String → SQLiteValue :=
  fun c => if c = "genome_build" then SQLiteValue.text "GRCh38" else SQLiteValue.null

/-- A freshly inserted row: both provenance timestamps default to
`CURRENT_TIMESTAMP`. -/
def mkRow (gene hgvs_p : String) (fs : FeatureSet) (now : Nat) : VRow :=
  { gene := gene, hgvs_p := hgvs_p, cols := setCols defaultCols fs,
    created_at := now, updated_at := now }

/-- The primary-key test of `ON CONFLICT(gene, hgvs_p)` (resp.
`ON CONFLICT(gene, hgvs_c)` for the LOF table). -/
def keyMatch (g p : String) (r : VRow) : Bool :=
  decide (r.gene = g) && decide (r.hgvs_p = p)

/-- `SELECT * FROM table WHERE gene = ? AND hgvs_p = ?` (`get_missense` /
`get_lof`). -/
def findRow (t : List VRow) (g p : String) : Option VRow :=
  t.find? (keyMatch g p)

/-- The error surfaced when the `INSERT ... ON CONFLICT(gene, hgvs_p) DO
UPDATE` statement violates the *other* uniqueness constraint, the genomic
coordinate tuple: sqlite3 raises `IntegrityError("UNIQUE constraint failed:
<table>.chromosome, ...")`, which propagates out of `_upsert`. -/
inductive UpsertError where
  | coordUniqueViolation (gene hgvs_p : String)
deriving DecidableEq

/-- `VariantDB._upsert(table, gene, hgvs_p, **features)`:

```
INSERT INTO {table} (gene, hgvs_p, k₁, ..., kₙ)
VALUES (?, ..., ?)
ON CONFLICT(gene, hgvs_p) DO UPDATE SET k₁ = excluded.k₁, ...,
  updated_at = CURRENT_TIMESTAMP
```

If a row with the primary key exists the conflict target fires and the
supplied columns are overwritten (the updated row must still satisfy the
coordinate uniqueness constraint against every other row); otherwise a new
row is inserted, provided its coordinate tuple does not collide with an
existing row's — in that case sqlite3 raises `IntegrityError` and the
statement has no effect.

The effect of the `DO UPDATE SET` clause on the conflicting row is
`updateRow`: every supplied column is overwritten with the `excluded` value
and `updated_at = CURRENT_TIMESTAMP` is refreshed. -/
def updateRow (r : VRow) (fs : FeatureSet) (now : Nat) : VRow :=
  { r with cols := setCols r.cols fs, updated_at := now }

def upsertGeneric (t : List VRow) (now : Nat) (g p : String) (fs : FeatureSet) :
    Except UpsertError (List VRow) :=
  match findRow t g p with
  | some r =>
    if t.any (fun r₂ => !keyMatch g p r₂ && coordConflict (updateRow r fs now) r₂) then
      .error (.coordUniqueViolation g p)
    else
      .ok (t.map fun r₂ => if keyMatch g p r₂ then updateRow r fs now else r₂)
  | none =>
    if t.any (fun r₂ => coordConflict (mkRow g p fs now) r₂) then
      .error (.coordUniqueViolation g p)
    else
      .ok (t ++ [mkRow g p fs now])

/-- `VariantDB.upsert_missense(gene, hgvs_p, **features)`. -/
def upsert_missense (t : List VRow) (now : Nat) (gene hgvs_p : String) (fs : FeatureSet) :
    Except UpsertError (List VRow) :=
  upsertGeneric t now gene hgvs_p fs

/-- `VariantDB.upsert_lof(gene, hgvs_c, lof_type, **features)`: the code
performs `features["lof_type"] = lof_type` — `lof_type` is a mandatory
positional parameter, so it can never already be a key of `features` and the
dict assignment appends it — and then runs the same insert-or-update
statement keyed on `(gene, hgvs_c)`. -/
def upsert_lof (t : List VRow) (now : Nat) (gene hgvs_c lof_type : String)
    (fs : FeatureSet) : Except UpsertError (List VRow) :=
  upsertGeneric t now gene hgvs_c (fs ++ [("lof_type", SQLiteValue.text lof_type)])

/-- The caller-visible effect of one `_upsert` call on the connection: on
success the table is replaced, on an `IntegrityError` the exception
propagates before `commit()` and the failed statement leaves the table
unchanged. -/
def upsertOrKeep (t : List VRow) (now : Nat) (g p : String) (fs : FeatureSet) :
    List VRow × Option UpsertError :=
  match upsertGeneric t now g p fs with
  | .ok t' => (t', none)
  | .error e => (t, some e)

/-! ### Helper lemmas about the merge engine -/

theorem setCols_idem (f : String → SQLiteValue) (fs : FeatureSet) :
    setCols (setCols f fs) fs = setCols f fs := by
  funext c
  unfold setCols
  cases h : alookup fs c <;> simp [h]

theorem setCols_not_supplied (f : String → SQLiteValue) (fs : FeatureSet) (c : String)
    (h : alookup fs c = none) : setCols f fs c = f c := by
  unfold setCols
  simp [h]

theorem coordConflict_congr_left {r₁ r₃ : VRow} (r₂ : VRow) (h : r₁.cols = r₃.cols) :
    coordConflict r₁ r₂ = coordConflict r₃ r₂ := by
  simp [coordConflict, h]

theorem keyMatch_mkRow (g p : String) (fs : FeatureSet) (now : Nat) :
    keyMatch g p (mkRow g p fs now) = true := by
  simp [keyMatch, mkRow]

theorem findRow_append_of_none {t : List VRow} {g p : String} (h : findRow t g p = none)
    (t₂ : List VRow) : findRow (t ++ t₂) g p = findRow t₂ g p := by
  induction t with
  | nil => simp
  | cons a t ih =>
    unfold findRow at h ⊢
    cases ha : keyMatch g p a with
    | true => rw [List.find?_cons_of_pos _ ha] at h; exact absurd h (by simp)
    | false =>
      rw [List.find?_cons_of_neg _ (by simp [ha])] at h
      rw [List.cons_append, List.find?_cons_of_neg _ (by simp [ha])]
      exact ih h

theorem findRow_map_update {t : List VRow} {g p : String} {r r' : VRow}
    (hfind : findRow t g p = some r) (hr' : keyMatch g p r' = true) :
    findRow (t.map fun r₂ => if keyMatch g p r₂ then r' else r₂) g p = some r' := by
  induction t with
  | nil => simp [findRow] at hfind
  | cons a t ih =>
    unfold findRow at hfind ⊢
    cases ha : keyMatch g p a with
    | true =>
      simp only [List.map_cons, ha, if_pos rfl]
      rw [if_pos (by trivial), List.find?_cons_of_pos _ hr']
    | false =>
      rw [List.find?_cons_of_neg _ (by simp [ha])] at hfind
      simp only [List.map_cons, ha]
      rw [if_neg (by simp), List.find?_cons_of_neg _ (by simp [ha])]
      exact ih hfind

theorem findRow_none_no_match {t : List VRow} {g p : String} (h : findRow t g p = none) :
    ∀ r ∈ t, keyMatch g p r = false := by
  intro r hr
  have := List.find?_eq_none.mp h r hr
  simpa using this

theorem updateRow_cols_idem (r : VRow) (fs : FeatureSet) (now₁ now₂ : Nat) :
    (updateRow (updateRow r fs now₁) fs now₂).cols = (updateRow r fs now₁).cols := by
  unfold updateRow
  simp only [setCols_idem]

theorem updateRow_twice (r : VRow) (fs : FeatureSet) (now₁ now₂ : Nat) :
    updateRow (updateRow r fs now₁) fs now₂ = { updateRow r fs now₁ with updated_at := now₂ } := by
  unfold updateRow
  simp only [setCols_idem]

/-! ### C1 — idempotence of the missense upsert -/

/-- C1: applying `upsert_missense` twice with identical `(gene, hgvs_p,
features)` input always succeeds on the second call and leaves the table —
in particular the stored row — identical to applying it once, except that
the key-matching row's `updated_at` timestamp is refreshed to the second
call's clock. -/
theorem upsert_missense_idempotent
    (t : List VRow) (now₁ now₂ : Nat) (g p : String) (fs : FeatureSet) (t₁ : List VRow)
    (h : upsert_missense t now₁ g p fs = .ok t₁) :
    upsert_missense t₁ now₂ g p fs =
      .ok (t₁.map fun r => if keyMatch g p r then { r with updated_at := now₂ } else r) := by
  unfold upsert_missense upsertGeneric at h ⊢
  cases h₀ : findRow t g p with
  | none =>
    rw [h₀] at h
    simp only [] at h
    split at h
    · exact absurd h (by simp)
    · rename_i hcond
      rw [Bool.not_eq_true, List.any_eq_false] at hcond
      injection h with h2
      subst h2
      have hn : keyMatch g p (mkRow g p fs now₁) = true := keyMatch_mkRow g p fs now₁
      have hcols : (updateRow (mkRow g p fs now₁) fs now₂).cols = (mkRow g p fs now₁).cols := by
        unfold updateRow mkRow
        simp only [setCols_idem]
      have hu : updateRow (mkRow g p fs now₁) fs now₂ =
          { mkRow g p fs now₁ with updated_at := now₂ } := by
        unfold updateRow mkRow
        simp only [setCols_idem]
      have hfind₁ : findRow (t ++ [mkRow g p fs now₁]) g p = some (mkRow g p fs now₁) := by
        rw [findRow_append_of_none h₀]
        unfold findRow
        exact List.find?_cons_of_pos _ hn
      rw [hfind₁]
      dsimp only
      have hany : (t ++ [mkRow g p fs now₁]).any
          (fun r₂ => !keyMatch g p r₂ &&
            coordConflict (updateRow (mkRow g p fs now₁) fs now₂) r₂) = false := by
        rw [List.any_eq_false]
        intro x hx
        rcases List.mem_append.mp hx with hx | hx
        · have hkx : keyMatch g p x = false := findRow_none_no_match h₀ x hx
          have hcx : coordConflict (mkRow g p fs now₁) x = false := by
            have := hcond x hx
            simpa using this
          simp [hkx, coordConflict_congr_left x hcols, hcx]
        · have hx' : x = mkRow g p fs now₁ := by simpa using hx
          subst hx'
          simp [hn]
      rw [if_neg (by simp [hany])]
      congr 1
      apply List.map_congr_left
      intro x hx
      rcases List.mem_append.mp hx with hx | hx
      · have hkx : keyMatch g p x = false := findRow_none_no_match h₀ x hx
        simp [hkx]
      · have hx' : x = mkRow g p fs now₁ := by simpa using hx
        subst hx'
        simp [hn, hu]
  | some r =>
    rw [h₀] at h
    simp only [] at h
    split at h
    · exact absurd h (by simp)
    · rename_i hcond
      rw [Bool.not_eq_true, List.any_eq_false] at hcond
      injection h with h2
      subst h2
      have h₀' : t.find? (keyMatch g p) = some r := h₀
      have hkr : keyMatch g p r = true := List.find?_some h₀'
      have hkr' : keyMatch g p (updateRow r fs now₁) = true := hkr
      have hfind₁ :
          findRow (t.map fun r₂ => if keyMatch g p r₂ then updateRow r fs now₁ else r₂) g p =
            some (updateRow r fs now₁) := findRow_map_update h₀ hkr'
      rw [hfind₁]
      dsimp only
      have hcols := updateRow_cols_idem r fs now₁ now₂
      have hu := updateRow_twice r fs now₁ now₂
      have hany : ((t.map fun r₂ => if keyMatch g p r₂ then updateRow r fs now₁ else r₂).any
          (fun r₂ => !keyMatch g p r₂ &&
            coordConflict (updateRow (updateRow r fs now₁) fs now₂) r₂)) = false := by
        rw [List.any_map, List.any_eq_false]
        intro x hx
        by_cases hkx : keyMatch g p x = true
        · simp [Function.comp, hkx, hkr']
        · have hkx' : keyMatch g p x = false := by simpa using hkx
          have hcc : coordConflict (updateRow r fs now₁) x = false := by
            have := hcond x hx
            simpa [hkx'] using this
          simp [Function.comp, hkx', coordConflict_congr_left x hcols, hcc]
      rw [if_neg (by simp [hany])]
      congr 1
      rw [List.map_map, List.map_map]
      apply List.map_congr_left
      intro x hx
      by_cases hkx : keyMatch g p x = true
      · simp [Function.comp, hkx, hkr', hu]
      · have hkx' : keyMatch g p x = false := by simpa using hkx
        simp [Function.comp, hkx']

/-- Witness for C1: a fresh row for `("KCNH2", "p.Ala561Val")` upserted at
time 0 and then upserted again at time 1 with the identical feature set. -/
theorem upsert_missense_idempotent_witness :
    upsert_missense [mkRow "KCNH2" "p.Ala561Val" [("clinvar_stars", SQLiteValue.integer 3)] 0] 1
        "KCNH2" "p.Ala561Val" [("clinvar_stars", SQLiteValue.integer 3)] =
      .ok ([mkRow "KCNH2" "p.Ala561Val" [("clinvar_stars", SQLiteValue.integer 3)] 0].map
        fun r => if keyMatch "KCNH2" "p.Ala561Val" r then { r with updated_at := 1 } else r) :=
  upsert_missense_idempotent [] 0 1 "KCNH2" "p.Ala561Val"
    [("clinvar_stars", SQLiteValue.integer 3)]
    [mkRow "KCNH2" "p.Ala561Val" [("clinvar_stars", SQLiteValue.integer 3)] 0] rfl

/-! ### C2 — column non-clobbering -/

/-- C2: merging a feature set into an existing missense row leaves every
column that is not a key of the feature set at its previously stored value
(and preserves the key columns and the creation timestamp): only supplied
columns and `updated_at` change. -/
theorem upsert_missense_non_clobbering
    (t : List VRow) (now : Nat) (g p : String) (fs : FeatureSet) (t' : List VRow) (r : VRow)
    (c : String)
    (hr : findRow t g p = some r)
    (hok : upsert_missense t now g p fs = .ok t')
    (hc : alookup fs c = none) :
    ∃ r', findRow t' g p = some r' ∧ r'.cols c = r.cols c ∧ r'.gene = r.gene ∧
      r'.hgvs_p = r.hgvs_p ∧ r'.created_at = r.created_at := by
  unfold upsert_missense upsertGeneric at hok
  rw [hr] at hok
  simp only [] at hok
  split at hok
  · exact absurd hok (by simp)
  · injection hok with h2
    subst h2
    have h₀' : t.find? (keyMatch g p) = some r := hr
    have hkr : keyMatch g p r = true := List.find?_some h₀'
    have hkr' : keyMatch g p (updateRow r fs now) = true := hkr
    refine ⟨updateRow r fs now, findRow_map_update hr hkr', ?_, rfl, rfl, rfl⟩
    show setCols r.cols fs c = r.cols c
    exact setCols_not_supplied _ _ _ hc

/-- Witness for C2: a row holding a ClinVar star rating receives a
gnomAD-only feature set; the star rating survives. -/
theorem upsert_missense_non_clobbering_witness :
    ∃ r', findRow [updateRow (mkRow "KCNH2" "p.Ala561Val"
          [("clinvar_stars", SQLiteValue.integer 3)] 0)
          [("gnomad_homozygotes", SQLiteValue.integer 0)] 5] "KCNH2" "p.Ala561Val" = some r' ∧
      r'.cols "clinvar_stars" =
        (mkRow "KCNH2" "p.Ala561Val" [("clinvar_stars", SQLiteValue.integer 3)] 0).cols
          "clinvar_stars" ∧
      r'.gene = (mkRow "KCNH2" "p.Ala561Val" [("clinvar_stars", SQLiteValue.integer 3)] 0).gene ∧
      r'.hgvs_p =
        (mkRow "KCNH2" "p.Ala561Val" [("clinvar_stars", SQLiteValue.integer 3)] 0).hgvs_p ∧
      r'.created_at =
        (mkRow "KCNH2" "p.Ala561Val" [("clinvar_stars", SQLiteValue.integer 3)] 0).created_at :=
  upsert_missense_non_clobbering
    [mkRow "KCNH2" "p.Ala561Val" [("clinvar_stars", SQLiteValue.integer 3)] 0] 5
    "KCNH2" "p.Ala561Val" [("gnomad_homozygotes", SQLiteValue.integer 0)]
    [updateRow (mkRow "KCNH2" "p.Ala561Val" [("clinvar_stars", SQLiteValue.integer 3)] 0)
      [("gnomad_homozygotes", SQLiteValue.integer 0)] 5]
    (mkRow "KCNH2" "p.Ala561Val" [("clinvar_stars", SQLiteValue.integer 3)] 0)
    "clinvar_stars" rfl rfl rfl

/-! ### C3 — cross-source identity conflict -/

/-- C3: when the supplied `(gene, hgvs_p)` pair matches no existing row but
the inserted row's genomic coordinate tuple collides with an existing row's
secondary unique key, the upsert surfaces the distinguishable
coordinate-uniqueness `IntegrityError` and leaves the store unchanged — the
record is neither silently dropped (an error is reported) nor merged into or
over the existing row. -/
theorem upsert_missense_cross_source_conflict
    (t : List VRow) (now : Nat) (g p : String) (fs : FeatureSet)
    (hnone : findRow t g p = none)
    (hconf : t.any (fun r₂ => coordConflict (mkRow g p fs now) r₂) = true) :
    upsertOrKeep t now g p fs = (t, some (UpsertError.coordUniqueViolation g p)) := by
  unfold upsertOrKeep upsertGeneric
  rw [hnone]
  simp [hconf]

/-- Witness for C3: two different protein-change identities claiming the
same `(chromosome, position, ref, alt, genome_build)` tuple. -/
theorem upsert_missense_cross_source_conflict_witness :
    upsertOrKeep [mkRow "KCNH2" "p.Ala561Val"
        [("chromosome", SQLiteValue.text "7"), ("position", SQLiteValue.integer 150951513),
         ("ref", SQLiteValue.text "C"), ("alt", SQLiteValue.text "T")] 0] 7
      "KCNH2" "p.Gly965Arg"
      [("chromosome", SQLiteValue.text "7"), ("position", SQLiteValue.integer 150951513),
       ("ref", SQLiteValue.text "C"), ("alt", SQLiteValue.text "T")] =
    ([mkRow "KCNH2" "p.Ala561Val"
        [("chromosome", SQLiteValue.text "7"), ("position", SQLiteValue.integer 150951513),
         ("ref", SQLiteValue.text "C"), ("alt", SQLiteValue.text "T")] 0],
     some (UpsertError.coordUniqueViolation "KCNH2" "p.Gly965Arg")) :=
  upsert_missense_cross_source_conflict _ 7 "KCNH2" "p.Gly965Arg" _ rfl rfl

/-! ### C10 — `upsert_lof` always overwrites `lof_type` -/

/-- C10: `upsert_lof` on an existing `(gene, hgvs_c)` row always overwrites
the stored `lof_type` column with the newly supplied `lof_type` value,
whatever the rest of the feature set: `lof_type` is a mandatory positional
parameter that `upsert_lof` itself inserts into the feature set (so it
cannot be omitted from a LOF merge), hence merging into an existing LOF row
necessarily clobbers its previously stored `lof_type`. -/
theorem upsert_lof_always_overwrites_lof_type
    (t : List VRow) (now : Nat) (g c lt : String) (fs : FeatureSet) (t' : List VRow) (r : VRow)
    (hr : findRow t g c = some r)
    (hfs : alookup fs "lof_type" = none)
    (hok : upsert_lof t now g c lt fs = .ok t') :
    ∃ r', findRow t' g c = some r' ∧ r'.cols "lof_type" = SQLiteValue.text lt := by
  unfold upsert_lof upsertGeneric at hok
  rw [hr] at hok
  simp only [] at hok
  split at hok
  · exact absurd hok (by simp)
  · injection hok with h2
    subst h2
    have h₀' : t.find? (keyMatch g c) = some r := hr
    have hkr : keyMatch g c r = true := List.find?_some h₀'
    have hkr' :
        keyMatch g c (updateRow r (fs ++ [("lof_type", SQLiteValue.text lt)]) now) = true := hkr
    refine ⟨_, findRow_map_update hr hkr', ?_⟩
    show setCols r.cols (fs ++ [("lof_type", SQLiteValue.text lt)]) "lof_type" =
      SQLiteValue.text lt
    unfold setCols
    rw [alookup_append_right _ _ _ hfs]
    simp [alookup]

/-- Witness for C10: a LOF row stored as `nonsense` is merged with an empty
feature set and lof type `frameshift`; the stored `lof_type` is clobbered. -/
theorem upsert_lof_always_overwrites_lof_type_witness :
    ∃ r', findRow [updateRow (mkRow "KCNH2" "c.1600C>T"
          [("lof_type", SQLiteValue.text "nonsense")] 0)
          [("lof_type", SQLiteValue.text "frameshift")] 9] "KCNH2" "c.1600C>T" = some r' ∧
      r'.cols "lof_type" = SQLiteValue.text "frameshift" :=
  upsert_lof_always_overwrites_lof_type
    [mkRow "KCNH2" "c.1600C>T" [("lof_type", SQLiteValue.text "nonsense")] 0] 9
    "KCNH2" "c.1600C>T" "frameshift" []
    [updateRow (mkRow "KCNH2" "c.1600C>T" [("lof_type", SQLiteValue.text "nonsense")] 0)
      [("lof_type", SQLiteValue.text "frameshift")] 9]
    (mkRow "KCNH2" "c.1600C>T" [("lof_type", SQLiteValue.text "nonsense")] 0) rfl rfl rfl

/-! ## Character classes and decimal notation

`isDigitCh` is the regex class `\d` (ASCII `[0-9]`), `isAlphaCh` is
`[A-Za-z]`, stated on code points so that disjointness facts are arithmetic. -/

def isDigitCh (c : Char) : Bool := 48 ≤ c.toNat && c.toNat ≤ 57

def isAlphaCh (c : Char) : Bool :=
  (65 ≤ c.toNat && c.toNat ≤ 90) || (97 ≤ c.toNat && c.toNat ≤ 122)

def digitCharOf (n : Nat) : Char := Char.ofNat (48 + n)

/-- Canonical decimal rendering of a natural number, as produced by a Python
f-string `f"{position}"`. -/
def natDigits (n : Nat) : List Char :=
  if h : n < 10 then [digitCharOf n]
  else natDigits (n / 10) ++ [digitCharOf (n % 10)]
decreasing_by exact Nat.div_lt_self (by omega) (by decide)

def digitValue (c : Char) : Nat := c.toNat - 48

def digitsToNat (ds : List Char) : Nat :=
  ds.foldl (fun acc c => 10 * acc + digitValue c) 0

/-- Decimal rendering of a Python `int` by an f-string (a sign for negative
values, then the decimal digits). -/
def intDigits (i : Int) : List Char :=
  if i < 0 then '-' :: natDigits i.natAbs else natDigits i.toNat

/-- Python `int(s)` on the strings that occur in variant notations: an
optional sign followed by at least one decimal digit, `None` on anything
else (`int()` raises `ValueError`, which every caller turns into a skip).
`int()` additionally tolerates surrounding whitespace and `_` digit
separators; those never occur inside a substitution code and are not
modelled. -/
def pyNat (ds : List Char) : Option Nat :=
  if ds ≠ [] ∧ ds.all isDigitCh then some (digitsToNat ds) else none

def pyInt (cs : List Char) : Option Int :=
  match cs with
  | [] => none
  | c :: rest =>
    if c = '-' then (pyNat rest).map (fun n => -(n : Int))
    else if c = '+' then (pyNat rest).map (fun n => (n : Int))
    else (pyNat cs).map (fun n => (n : Int))

/-! ## The fixed 20-entry amino-acid table (`AA_MAP` in
`fetchers/alphamissense.py`) -/

def AA_TABLE : List (Char × List Char) := [
  ('A', ['A','l','a']), ('C', ['C','y','s']), ('D', ['A','s','p']), ('E', ['G','l','u']),
  ('F', ['P','h','e']), ('G', ['G','l','y']), ('H', ['H','i','s']), ('I', ['I','l','e']),
  ('K', ['L','y','s']), ('L', ['L','e','u']), ('M', ['M','e','t']), ('N', ['A','s','n']),
  ('P', ['P','r','o']), ('Q', ['G','l','n']), ('R', ['A','r','g']), ('S', ['S','e','r']),
  ('T', ['T','h','r']), ('V', ['V','a','l']), ('W', ['T','r','p']), ('Y', ['T','y','r'])]

def AA_MAP (c : Char) : Option (List Char) := alookup AA_TABLE c

/-- `AA_MAP.get(aa, aa)`: the 3-letter code, falling back to the 1-letter
input itself when it is not in the table. -/
def aa3 (c : Char) : List Char := (AA_MAP c).getD [c]

/-! ## `parse_protein_change` (`fetchers/clinvar.py`)

The function runs `re.search` with
`r'\(p\.([A-Za-z]{3}\d+[A-Za-z]{3})\)'` and, failing that,
`r'\(p\.([A-Za-z]{3}\d+(?:Ter|\*))\)'`, normalizing `*` to `Ter` in the
second case.  `re.search` returns the leftmost match.  Because `[A-Za-z]`,
`Ter` and `*` all start with a non-digit, the greedy `\d+` never has to
backtrack: at any candidate position the regexes match if and only if the
maximal digit run is non-empty and is followed by the literal tail.  The
matchers below implement exactly that maximal-munch reading, position by
position. -/

def matchSubAfterDigits (ds rest₃ : List Char) : Option (List Char) :=
  match rest₃ with
  | b₁ :: b₂ :: b₃ :: ')' :: _ =>
    if ds ≠ [] ∧ isAlphaCh b₁ = true ∧ isAlphaCh b₂ = true ∧ isAlphaCh b₃ = true then
      some (ds ++ [b₁, b₂, b₃])
    else none
  | _ => none

def matchSubBody (rest : List Char) : Option (List Char) :=
  match rest with
  | a₁ :: a₂ :: a₃ :: rest₂ =>
    if isAlphaCh a₁ = true ∧ isAlphaCh a₂ = true ∧ isAlphaCh a₃ = true then
      (matchSubAfterDigits (rest₂.takeWhile isDigitCh) (rest₂.dropWhile isDigitCh)).map
        (fun tail => a₁ :: a₂ :: a₃ :: tail)
    else none
  | _ => none

/-- One attempt of `r'\(p\.([A-Za-z]{3}\d+[A-Za-z]{3})\)'` at the head of
the list, returning the capture group. -/
def matchSubAt (cs : List Char) : Option (List Char) :=
  match cs with
  | '(' :: 'p' :: '.' :: rest => matchSubBody rest
  | _ => none

def matchTerAfterDigits (ds rest₃ : List Char) : Option (List Char) :=
  if ds = [] then none
  else
    match rest₃ with
    | 'T' :: 'e' :: 'r' :: ')' :: _ => some (ds ++ ['T', 'e', 'r'])
    | '*' :: ')' :: _ => some (ds ++ ['*'])
    | _ => none

def matchTerBody (rest : List Char) : Option (List Char) :=
  match rest with
  | a₁ :: a₂ :: a₃ :: rest₂ =>
    if isAlphaCh a₁ = true ∧ isAlphaCh a₂ = true ∧ isAlphaCh a₃ = true then
      (matchTerAfterDigits (rest₂.takeWhile isDigitCh) (rest₂.dropWhile isDigitCh)).map
        (fun tail => a₁ :: a₂ :: a₃ :: tail)
    else none
  | _ => none

/-- One attempt of `r'\(p\.([A-Za-z]{3}\d+(?:Ter|\*))\)'` at the head of the
list. -/
def matchTerAt (cs : List Char) : Option (List Char) :=
  match cs with
  | '(' :: 'p' :: '.' :: rest => matchTerBody rest
  | _ => none

/-- `re.search`: try the matcher at every position, left to right, and
return the first capture. -/
def searchFirst (f : List Char → Option (List Char)) : List Char → Option (List Char)
  | [] => none
  | c :: cs =>
    match f (c :: cs) with
    | some r => some r
    | none => searchFirst f cs

/-- `str.replace('*', 'Ter')`. -/
def replaceStar : List Char → List Char
  | [] => []
  | c :: cs => (if c = '*' then ['T', 'e', 'r'] else [c]) ++ replaceStar cs

/-- `parse_protein_change(name)`: first regex wins, else the stop-gain
regex with `*` normalized to `Ter`, else `None`. -/
def parse_protein_change (name : String) : Option String :=
  match searchFirst matchSubAt name.data with
  | some g => some (String.mk ('p' :: '.' :: g))
  | none =>
    match searchFirst matchTerAt name.data with
    | some g => some (String.mk ('p' :: '.' :: replaceStar g))
    | none => none

/-! ## The compact substitution path of `fetch_alphamissense`
(`fetchers/alphamissense.py`, the per-row block that parses
`var_part` — e.g. `"A561V"` — and builds `hgvs_p`) -/

/-- `if len(var_part) >= 3: ref_aa = var_part[0]; alt_aa = var_part[-1];
position = int(var_part[1:-1])`, skipping the record when `int` raises. -/
def amParseVarPart (var_part : List Char) : Option (Char × Int × Char) :=
  if var_part.length ≥ 3 then
    match var_part with
    | r :: rest =>
      match rest.getLast? with
      | some a =>
        match pyInt rest.dropLast with
        | some n => some (r, n, a)
        | none => none
      | none => none
    | [] => none
  else none

/-- `f"p.{ref_3}{position}{alt_3}"` with `ref_3 = AA_MAP.get(ref_aa,
ref_aa)` and `alt_3 = AA_MAP.get(alt_aa, alt_aa)`. -/
def amHgvs (r : Char) (n : Int) (a : Char) : String :=
  String.mk ('p' :: '.' :: (aa3 r ++ intDigits n ++ aa3 a))

/-- The `hgvs_p` identifier emitted by `fetch_alphamissense` for a compact
substitution code, `none` when the record is skipped. -/
def amHgvsFromVarPart (var_part : List Char) : Option String :=
  (amParseVarPart var_part).map (fun x => amHgvs x.1 x.2.1 x.2.2)

/-! ### Character-class facts -/

theorem alpha_not_digit {c : Char} (h : isAlphaCh c = true) : isDigitCh c = false := by
  by_contra hd
  rw [Bool.not_eq_false] at hd
  simp only [isAlphaCh, isDigitCh, Bool.or_eq_true, Bool.and_eq_true,
    decide_eq_true_eq] at h hd
  omega

theorem alpha_ne_paren {c : Char} (h : isAlphaCh c = true) : c ≠ '(' := by
  rintro rfl
  exact absurd h (by decide)

theorem alpha_ne_star {c : Char} (h : isAlphaCh c = true) : c ≠ '*' := by
  rintro rfl
  exact absurd h (by decide)

theorem digit_ne_paren {c : Char} (h : isDigitCh c = true) : c ≠ '(' := by
  rintro rfl
  exact absurd h (by decide)

theorem digit_ne_star {c : Char} (h : isDigitCh c = true) : c ≠ '*' := by
  rintro rfl
  exact absurd h (by decide)

theorem digit_ne_dash {c : Char} (h : isDigitCh c = true) : c ≠ '-' := by
  rintro rfl
  exact absurd h (by decide)

theorem digit_ne_plus {c : Char} (h : isDigitCh c = true) : c ≠ '+' := by
  rintro rfl
  exact absurd h (by decide)

/-! ### Decimal rendering facts -/

theorem digitCharOf_isDigit {k : Nat} (h : k < 10) : isDigitCh (digitCharOf k) = true := by
  interval_cases k <;> decide

theorem digitValue_digitCharOf {k : Nat} (h : k < 10) : digitValue (digitCharOf k) = k := by
  interval_cases k <;> decide

theorem natDigits_ne_nil (n : Nat) : natDigits n ≠ [] := by
  rw [natDigits]
  split <;> simp

theorem natDigits_all_digit (n : Nat) : ∀ c ∈ natDigits n, isDigitCh c = true := by
  induction n using Nat.strong_induction_on with
  | _ n ih =>
    rw [natDigits]
    split
    · rename_i h
      intro c hc
      simp at hc
      subst hc
      exact digitCharOf_isDigit h
    · rename_i h
      intro c hc
      rcases List.mem_append.mp hc with hc | hc
      · exact ih (n / 10) (Nat.div_lt_self (by omega) (by decide)) c hc
      · simp at hc
        subst hc
        exact digitCharOf_isDigit (Nat.mod_lt _ (by omega))

theorem digitsToNat_append_singleton (l : List Char) (c : Char) :
    digitsToNat (l ++ [c]) = 10 * digitsToNat l + digitValue c := by
  simp [digitsToNat, List.foldl_append]

theorem digitsToNat_natDigits (n : Nat) : digitsToNat (natDigits n) = n := by
  induction n using Nat.strong_induction_on with
  | _ n ih =>
    rw [natDigits]
    split
    · rename_i h
      simp [digitsToNat, digitValue_digitCharOf h]
    · rename_i h
      rw [digitsToNat_append_singleton,
        ih (n / 10) (Nat.div_lt_self (by omega) (by decide)),
        digitValue_digitCharOf (Nat.mod_lt _ (by omega))]
      omega

theorem pyNat_natDigits (n : Nat) : pyNat (natDigits n) = some n := by
  unfold pyNat
  rw [if_pos]
  · rw [digitsToNat_natDigits]
  · exact ⟨natDigits_ne_nil n, List.all_eq_true.mpr (natDigits_all_digit n)⟩

theorem pyInt_natDigits (n : Nat) : pyInt (natDigits n) = some (n : Int) := by
  obtain ⟨c, rest, hcons⟩ : ∃ c rest, natDigits n = c :: rest := by
    cases h : natDigits n with
    | nil => exact absurd h (natDigits_ne_nil n)
    | cons c rest => exact ⟨c, rest, rfl⟩
  have hc : isDigitCh c = true := natDigits_all_digit n c (by rw [hcons]; simp)
  rw [hcons]
  unfold pyInt
  simp only []
  rw [if_neg (digit_ne_dash hc), if_neg (digit_ne_plus hc), ← hcons, pyNat_natDigits]
  rfl

/-! ### takeWhile / dropWhile across a digit run -/

theorem takeWhile_middle {p : Char → Bool} {l₁ l₂ : List Char} {c : Char}
    (h₁ : ∀ x ∈ l₁, p x = true) (h₂ : p c = false) :
    (l₁ ++ c :: l₂).takeWhile p = l₁ := by
  induction l₁ with
  | nil =>
    simp only [List.nil_append]
    exact List.takeWhile_cons_of_neg (by simp [h₂])
  | cons a l₁ ih =>
    rw [List.cons_append, List.takeWhile_cons_of_pos (by simp [h₁ a (by simp)])]
    rw [ih fun x hx => h₁ x (by simp [hx])]

theorem dropWhile_middle {p : Char → Bool} {l₁ l₂ : List Char} {c : Char}
    (h₁ : ∀ x ∈ l₁, p x = true) (h₂ : p c = false) :
    (l₁ ++ c :: l₂).dropWhile p = c :: l₂ := by
  induction l₁ with
  | nil =>
    simp only [List.nil_append]
    exact List.dropWhile_cons_of_neg (by simp [h₂])
  | cons a l₁ ih =>
    rw [List.cons_append, List.dropWhile_cons_of_pos (by simp [h₁ a (by simp)])]
    exact ih fun x hx => h₁ x (by simp [hx])

/-! ### `searchFirst` positioning lemmas -/

theorem searchFirst_cons_of_some {f : List Char → Option (List Char)} {c : Char}
    {cs r : List Char} (h : f (c :: cs) = some r) : searchFirst f (c :: cs) = some r := by
  unfold searchFirst
  rw [h]


theorem searchFirst_cons_of_none {f : List Char → Option (List Char)} {c : Char}
    {cs : List Char} (h : f (c :: cs) = none) : searchFirst f (c :: cs) = searchFirst f cs := by
  conv_lhs => unfold searchFirst
  rw [h]


theorem matchSubAt_not_paren {c : Char} (cs : List Char) (h : c ≠ '(') :
    matchSubAt (c :: cs) = none := by
  unfold matchSubAt
  split
  · rename_i heq
    injection heq with h1 _
    exact absurd h1 h
  · rfl

theorem matchTerAt_not_paren {c : Char} (cs : List Char) (h : c ≠ '(') :
    matchTerAt (c :: cs) = none := by
  unfold matchTerAt
  split
  · rename_i heq
    injection heq with h1 _
    exact absurd h1 h
  · rfl

theorem searchFirst_none_of_no_paren {f : List Char → Option (List Char)}
    (hf : ∀ (c : Char) (cs : List Char), c ≠ '(' → f (c :: cs) = none) :
    ∀ {l : List Char}, '(' ∉ l → searchFirst f l = none := by
  intro l
  induction l with
  | nil => intro _; rfl
  | cons c cs ih =>
    intro hl
    have hc : c ≠ '(' := fun hh => hl (by simp [hh])
    rw [searchFirst_cons_of_none (hf c cs hc)]
    exact ih fun hh => hl (by simp [hh])

/-- `re.search` skips every position of a prefix at which the matcher
fails. -/
theorem searchFirst_append_of_prefix_none {f : List Char → Option (List Char)} :
    ∀ (l₁ l₂ : List Char), (∀ i < l₁.length, f ((l₁ ++ l₂).drop i) = none) →
      searchFirst f (l₁ ++ l₂) = searchFirst f l₂ := by
  intro l₁
  induction l₁ with
  | nil => intro l₂ _; rfl
  | cons a l₁ ih =>
    intro l₂ h
    have h0 : f (a :: (l₁ ++ l₂)) = none := by
      have := h 0 (by simp)
      simpa using this
    rw [List.cons_append, searchFirst_cons_of_none h0]
    exact ih l₂ fun i hi => h (i + 1) (by simpa using Nat.succ_lt_succ hi)

/-! ### Matcher computation lemmas -/

theorem matchSubAfterDigits_star (ds rest : List Char) :
    matchSubAfterDigits ds ('*' :: ')' :: rest) = none := by
  unfold matchSubAfterDigits
  split
  · rename_i heq
    injection heq with e₁ heq
    subst e₁
    rw [if_neg]
    rintro ⟨-, hb, -⟩
    exact absurd hb (by decide)
  · rfl

theorem matchSubAfterDigits_nil (l : List Char) : matchSubAfterDigits [] l = none := by
  unfold matchSubAfterDigits
  split
  · rw [if_neg]
    rintro ⟨h, -⟩
    exact h rfl
  · rfl

theorem matchTerAfterDigits_nil (l : List Char) : matchTerAfterDigits [] l = none := by
  unfold matchTerAfterDigits
  rw [if_pos rfl]

theorem matchTerAfterDigits_ter (ds rest : List Char) (hds : ds ≠ []) :
    matchTerAfterDigits ds ('T' :: 'e' :: 'r' :: ')' :: rest) = some (ds ++ ['T', 'e', 'r']) := by
  unfold matchTerAfterDigits
  rw [if_neg hds]
  rfl

theorem matchTerAfterDigits_starcase (ds rest : List Char) (hds : ds ≠ []) :
    matchTerAfterDigits ds ('*' :: ')' :: rest) = some (ds ++ ['*']) := by
  unfold matchTerAfterDigits
  rw [if_neg hds]
  rfl

theorem matchSubBody_exact {x y z u v w : Char} {ds : List Char} (rest : List Char)
    (hx : isAlphaCh x = true) (hy : isAlphaCh y = true) (hz : isAlphaCh z = true)
    (hu : isAlphaCh u = true) (hv : isAlphaCh v = true) (hw : isAlphaCh w = true)
    (hds : ds ≠ []) (hdig : ∀ c ∈ ds, isDigitCh c = true) :
    matchSubBody (x :: y :: z :: (ds ++ u :: v :: w :: ')' :: rest)) =
      some (x :: y :: z :: (ds ++ [u, v, w])) := by
  unfold matchSubBody
  simp only []
  rw [if_pos ⟨hx, hy, hz⟩, takeWhile_middle hdig (alpha_not_digit hu),
    dropWhile_middle hdig (alpha_not_digit hu)]
  unfold matchSubAfterDigits
  simp only []
  rw [if_pos ⟨hds, hu, hv, hw⟩]
  rfl

theorem matchSubBody_star {x y z : Char} {ds : List Char} (rest : List Char)
    (hx : isAlphaCh x = true) (hy : isAlphaCh y = true) (hz : isAlphaCh z = true)
    (hdig : ∀ c ∈ ds, isDigitCh c = true) :
    matchSubBody (x :: y :: z :: (ds ++ '*' :: ')' :: rest)) = none := by
  unfold matchSubBody
  simp only []
  rw [if_pos ⟨hx, hy, hz⟩, takeWhile_middle hdig (by decide),
    dropWhile_middle hdig (by decide), matchSubAfterDigits_star]
  rfl

theorem matchTerBody_ter {x y z : Char} {ds : List Char} (rest : List Char)
    (hx : isAlphaCh x = true) (hy : isAlphaCh y = true) (hz : isAlphaCh z = true)
    (hds : ds ≠ []) (hdig : ∀ c ∈ ds, isDigitCh c = true) :
    matchTerBody (x :: y :: z :: (ds ++ 'T' :: 'e' :: 'r' :: ')' :: rest)) =
      some (x :: y :: z :: (ds ++ ['T', 'e', 'r'])) := by
  unfold matchTerBody
  simp only []
  rw [if_pos ⟨hx, hy, hz⟩, takeWhile_middle hdig (by decide),
    dropWhile_middle hdig (by decide), matchTerAfterDigits_ter _ _ hds]
  rfl

theorem matchTerBody_star {x y z : Char} {ds : List Char} (rest : List Char)
    (hx : isAlphaCh x = true) (hy : isAlphaCh y = true) (hz : isAlphaCh z = true)
    (hds : ds ≠ []) (hdig : ∀ c ∈ ds, isDigitCh c = true) :
    matchTerBody (x :: y :: z :: (ds ++ '*' :: ')' :: rest)) =
      some (x :: y :: z :: (ds ++ ['*'])) := by
  unfold matchTerBody
  simp only []
  rw [if_pos ⟨hx, hy, hz⟩, takeWhile_middle hdig (by decide),
    dropWhile_middle hdig (by decide), matchTerAfterDigits_starcase _ _ hds]
  rfl

theorem matchSubBody_bad_position {x y z c : Char} (rest : List Char)
    (hx : isAlphaCh x = true) (hy : isAlphaCh y = true) (hz : isAlphaCh z = true)
    (hc : isDigitCh c = false) :
    matchSubBody (x :: y :: z :: c :: rest) = none := by
  unfold matchSubBody
  simp only []
  rw [if_pos ⟨hx, hy, hz⟩, List.takeWhile_cons_of_neg (by simp [hc]),
    matchSubAfterDigits_nil]
  rfl

theorem matchTerBody_bad_position {x y z c : Char} (rest : List Char)
    (hx : isAlphaCh x = true) (hy : isAlphaCh y = true) (hz : isAlphaCh z = true)
    (hc : isDigitCh c = false) :
    matchTerBody (x :: y :: z :: c :: rest) = none := by
  unfold matchTerBody
  simp only []
  rw [if_pos ⟨hx, hy, hz⟩, List.takeWhile_cons_of_neg (by simp [hc]),
    matchTerAfterDigits_nil]
  rfl

/-! ### `replaceStar` facts -/

theorem replaceStar_append (l₁ l₂ : List Char) :
    replaceStar (l₁ ++ l₂) = replaceStar l₁ ++ replaceStar l₂ := by
  induction l₁ with
  | nil => rfl
  | cons c l₁ ih => simp [replaceStar, ih]

theorem replaceStar_no_star {l : List Char} (h : ∀ c ∈ l, c ≠ '*') :
    replaceStar l = l := by
  induction l with
  | nil => rfl
  | cons c l ih =>
    rw [replaceStar, if_neg (h c (by simp)), List.singleton_append,
      ih fun x hx => h x (by simp [hx])]

/-! ### The amino-acid table entries are triples of letters -/

theorem AA_MAP_spec {c : Char} {l : List Char} (h : AA_MAP c = some l) :
    ∃ x y z, l = [x, y, z] ∧ isAlphaCh x = true ∧ isAlphaCh y = true ∧ isAlphaCh z = true := by
  have hmem := alookup_mem h
  have hP : l.length = 3 ∧ l.all isAlphaCh = true := by
    have htab : ∀ p ∈ AA_TABLE, (p.2.length = 3 ∧ p.2.all isAlphaCh = true) := by decide
    exact htab _ hmem
  obtain ⟨h3, hall⟩ := hP
  rcases l with _ | ⟨x, _ | ⟨y, _ | ⟨z, rest⟩⟩⟩ <;> simp at h3
  subst h3
  simp only [List.all_cons, List.all_nil, Bool.and_eq_true] at hall
  exact ⟨x, y, z, rfl, hall.1, hall.2.1, hall.2.2.1⟩

/-! ### The compact path on a well-shaped substitution code -/

theorem amParseVarPart_shape (r a : Char) (ds : List Char) (hds : ds ≠ []) :
    amParseVarPart (r :: (ds ++ [a])) = (pyInt ds).map (fun n => (r, n, a)) := by
  unfold amParseVarPart
  rw [if_pos]
  · simp only []
    rw [List.getLast?_concat, List.dropLast_concat]
    cases pyInt ds
    · rfl
    · rfl
  · have hl := List.length_pos.mpr hds
    simp only [List.length_cons, List.length_append, List.length_singleton]
    omega

theorem intDigits_natCast (n : Nat) : intDigits (n : Int) = natDigits n := by
  unfold intDigits
  rw [if_neg (by omega), Int.toNat_natCast]

theorem amHgvs_eq (r a : Char) (r3 a3 : List Char) (pos : Nat)
    (hr : AA_MAP r = some r3) (ha : AA_MAP a = some a3) :
    amHgvs r (pos : Int) a = String.mk ('p' :: '.' :: (r3 ++ natDigits pos ++ a3)) := by
  unfold amHgvs aa3
  rw [hr, ha, intDigits_natCast]
  rfl

theorem amHgvsFromVarPart_digits (r a : Char) (pos : Nat) :
    amHgvsFromVarPart (r :: (natDigits pos ++ [a])) = some (amHgvs r (pos : Int) a) := by
  unfold amHgvsFromVarPart
  rw [amParseVarPart_shape r a _ (natDigits_ne_nil pos), pyInt_natDigits]
  rfl

/-! ### `parse_protein_change` on a name with a canonical substitution -/

theorem parse_protein_change_sub
    {x y z u v w : Char} {ds : List Char} (pre suf : List Char)
    (hx : isAlphaCh x = true) (hy : isAlphaCh y = true) (hz : isAlphaCh z = true)
    (hu : isAlphaCh u = true) (hv : isAlphaCh v = true) (hw : isAlphaCh w = true)
    (hds : ds ≠ []) (hdig : ∀ c ∈ ds, isDigitCh c = true)
    (hpre : ∀ i < pre.length,
      matchSubAt ((pre ++ '(' :: 'p' :: '.' :: x :: y :: z :: (ds ++ u :: v :: w :: ')' :: suf)).drop i) = none) :
    parse_protein_change
        (String.mk (pre ++ '(' :: 'p' :: '.' :: x :: y :: z :: (ds ++ u :: v :: w :: ')' :: suf))) =
      some (String.mk ('p' :: '.' :: x :: y :: z :: (ds ++ [u, v, w]))) := by
  unfold parse_protein_change
  have hsearch : searchFirst matchSubAt
      (pre ++ '(' :: 'p' :: '.' :: x :: y :: z :: (ds ++ u :: v :: w :: ')' :: suf)) =
      some (x :: y :: z :: (ds ++ [u, v, w])) := by
    rw [searchFirst_append_of_prefix_none pre _ hpre]
    exact searchFirst_cons_of_some (matchSubBody_exact suf hx hy hz hu hv hw hds hdig)
  rw [show (String.mk (pre ++ '(' :: 'p' :: '.' :: x :: y :: z :: (ds ++ u :: v :: w :: ')' :: suf))).data = pre ++ '(' :: 'p' :: '.' :: x :: y :: z :: (ds ++ u :: v :: w :: ')' :: suf) from rfl, hsearch]

/-! ### C4 — compact and free-text identity paths agree byte-for-byte -/

/-- C4: for every (ref-letter, position, alt-letter) triple with both
letters in the fixed 20-entry amino-acid table and a positive integer
position, the compact single-letter path of `fetch_alphamissense`
(`amHgvsFromVarPart` on `<ref><pos><alt>`) and the free-text path
(`parse_protein_change` on a clinical name containing the corresponding
3-letter annotation `(p.<Ref3><Pos><Alt3>)`, the leftmost regex match of
the name) produce the byte-identical canonical protein-change identifier
`p.<Ref3><Pos><Alt3>`. -/
theorem compact_and_freetext_identity_agree
    (r a : Char) (pos : Nat) (r3 a3 : List Char) (pre suf : List Char)
    (hr : AA_MAP r = some r3) (ha : AA_MAP a = some a3) (hpos : 0 < pos)
    (hpre : ∀ i < pre.length,
      matchSubAt ((pre ++ '(' :: 'p' :: '.' :: (r3 ++ natDigits pos ++ a3 ++ ')' :: suf)).drop i) = none) :
    amHgvsFromVarPart (r :: (natDigits pos ++ [a])) =
      some (String.mk ('p' :: '.' :: (r3 ++ natDigits pos ++ a3))) ∧
    parse_protein_change
        (String.mk (pre ++ '(' :: 'p' :: '.' :: (r3 ++ natDigits pos ++ a3 ++ ')' :: suf))) =
      some (String.mk ('p' :: '.' :: (r3 ++ natDigits pos ++ a3))) := by
  obtain ⟨x, y, z, rfl, hx, hy, hz⟩ := AA_MAP_spec hr
  obtain ⟨u, v, w, rfl, hu, hv, hw⟩ := AA_MAP_spec ha
  have hshape : ([x, y, z] : List Char) ++ natDigits pos ++ [u, v, w] ++ ')' :: suf
      = x :: y :: z :: (natDigits pos ++ u :: v :: w :: ')' :: suf) := by simp
  have hgroup : ([x, y, z] : List Char) ++ natDigits pos ++ [u, v, w]
      = x :: y :: z :: (natDigits pos ++ [u, v, w]) := by simp
  constructor
  · rw [amHgvsFromVarPart_digits, amHgvs_eq r a _ _ pos hr ha]
  · rw [hshape] at hpre ⊢
    rw [hgroup]
    exact parse_protein_change_sub pre suf hx hy hz hu hv hw
      (natDigits_ne_nil pos) (natDigits_all_digit pos) hpre

/-- Witness for C4: the triple `(A, 561, V)` against the clinical name
`NM_000238.4(KCNH2):c.1682C>T (p.Ala561Val)`. -/
theorem compact_and_freetext_identity_agree_witness :
    amHgvsFromVarPart ('A' :: (natDigits 561 ++ ['V'])) =
      some (String.mk ('p' :: '.' :: (['A','l','a'] ++ natDigits 561 ++ ['V','a','l']))) ∧
    parse_protein_change
        (String.mk ("NM_000238.4(KCNH2):c.1682C>T ".data ++
          '(' :: 'p' :: '.' :: (['A','l','a'] ++ natDigits 561 ++ ['V','a','l'] ++ ')' :: []))) =
      some (String.mk ('p' :: '.' :: (['A','l','a'] ++ natDigits 561 ++ ['V','a','l']))) :=
  compact_and_freetext_identity_agree 'A' 'V' 561 ['A','l','a'] ['V','a','l']
    "NM_000238.4(KCNH2):c.1682C>T ".data [] rfl rfl (by decide) (by decide)

/-! ### C6 — stop-gain normalization -/

theorem paren_not_mem_tail {x y z : Char} {ds tail : List Char}
    (hx : isAlphaCh x = true) (hy : isAlphaCh y = true) (hz : isAlphaCh z = true)
    (hdig : ∀ c ∈ ds, isDigitCh c = true) (htail : '(' ∉ tail) :
    '(' ∉ ('p' :: '.' :: x :: y :: z :: (ds ++ tail)) := by
  intro hmem
  simp only [List.mem_cons, List.mem_append] at hmem
  rcases hmem with h | h | h | h | h | h | h
  · exact absurd h (by decide)
  · exact absurd h (by decide)
  · exact alpha_ne_paren hx h.symm
  · exact alpha_ne_paren hy h.symm
  · exact alpha_ne_paren hz h.symm
  · exact absurd rfl (digit_ne_paren (hdig _ h))
  · exact htail h

/-- C6: `parse_protein_change` on a clinical name whose protein annotation
is a stop-gain with alt token `*` — e.g. a name containing `(p.Arg534*)`,
with no earlier regex match in the prefix and no later `(` in the suffix —
normalizes the `*` to `Ter` and returns the canonical form
(`p.Arg534Ter` for that example); the name with alt token already `Ter`
yields the same canonical form. -/
theorem parse_protein_change_stop_gain
    (x y z : Char) (pos : Nat) (pre suf : List Char)
    (hx : isAlphaCh x = true) (hy : isAlphaCh y = true) (hz : isAlphaCh z = true)
    (hpos : 0 < pos) (hsuf : '(' ∉ suf)
    (hpreStar : ∀ i < pre.length,
      matchSubAt ((pre ++ '(' :: 'p' :: '.' :: x :: y :: z :: (natDigits pos ++ '*' :: ')' :: suf)).drop i) = none ∧
      matchTerAt ((pre ++ '(' :: 'p' :: '.' :: x :: y :: z :: (natDigits pos ++ '*' :: ')' :: suf)).drop i) = none)
    (hpreTer : ∀ i < pre.length,
      matchSubAt ((pre ++ '(' :: 'p' :: '.' :: x :: y :: z :: (natDigits pos ++ 'T' :: 'e' :: 'r' :: ')' :: suf)).drop i) = none) :
    parse_protein_change
        (String.mk (pre ++ '(' :: 'p' :: '.' :: x :: y :: z :: (natDigits pos ++ '*' :: ')' :: suf))) =
      some (String.mk ('p' :: '.' :: x :: y :: z :: (natDigits pos ++ ['T', 'e', 'r']))) ∧
    parse_protein_change
        (String.mk (pre ++ '(' :: 'p' :: '.' :: x :: y :: z :: (natDigits pos ++ 'T' :: 'e' :: 'r' :: ')' :: suf))) =
      some (String.mk ('p' :: '.' :: x :: y :: z :: (natDigits pos ++ ['T', 'e', 'r']))) := by
  have hdig := natDigits_all_digit pos
  have hds := natDigits_ne_nil pos
  constructor
  · unfold parse_protein_change
    have hsub : searchFirst matchSubAt
        (pre ++ '(' :: 'p' :: '.' :: x :: y :: z :: (natDigits pos ++ '*' :: ')' :: suf)) = none := by
      rw [searchFirst_append_of_prefix_none pre _ (fun i hi => (hpreStar i hi).1)]
      rw [searchFirst_cons_of_none
        (show matchSubAt ('(' :: 'p' :: '.' :: x :: y :: z :: (natDigits pos ++ '*' :: ')' :: suf)) = none
          from matchSubBody_star suf hx hy hz hdig)]
      exact searchFirst_none_of_no_paren (fun c cs => matchSubAt_not_paren cs)
        (paren_not_mem_tail hx hy hz hdig (by
          intro hmem
          rcases List.mem_cons.mp hmem with h | hmem
          · exact absurd h (by decide)
          rcases List.mem_cons.mp hmem with h | hmem
          · exact absurd h (by decide)
          exact hsuf hmem))
    have hter : searchFirst matchTerAt
        (pre ++ '(' :: 'p' :: '.' :: x :: y :: z :: (natDigits pos ++ '*' :: ')' :: suf)) =
        some (x :: y :: z :: (natDigits pos ++ ['*'])) := by
      rw [searchFirst_append_of_prefix_none pre _ (fun i hi => (hpreStar i hi).2)]
      exact searchFirst_cons_of_some (matchTerBody_star suf hx hy hz hds hdig)
    rw [show (String.mk (pre ++ '(' :: 'p' :: '.' :: x :: y :: z :: (natDigits pos ++ '*' :: ')' :: suf))).data
        = pre ++ '(' :: 'p' :: '.' :: x :: y :: z :: (natDigits pos ++ '*' :: ')' :: suf) from rfl,
      hsub, hter]
    have hrep : replaceStar (x :: y :: z :: (natDigits pos ++ ['*']))
        = x :: y :: z :: (natDigits pos ++ ['T', 'e', 'r']) := by
      rw [replaceStar, if_neg (alpha_ne_star hx), replaceStar, if_neg (alpha_ne_star hy),
        replaceStar, if_neg (alpha_ne_star hz), replaceStar_append,
        replaceStar_no_star (fun c hc => digit_ne_star (hdig c hc))]
      rfl
    show some (String.mk ('p' :: '.' :: replaceStar (x :: y :: z :: (natDigits pos ++ ['*'])))) =
      some (String.mk ('p' :: '.' :: x :: y :: z :: (natDigits pos ++ ['T', 'e', 'r'])))
    rw [hrep]
  · unfold parse_protein_change
    have hsub : searchFirst matchSubAt
        (pre ++ '(' :: 'p' :: '.' :: x :: y :: z :: (natDigits pos ++ 'T' :: 'e' :: 'r' :: ')' :: suf)) =
        some (x :: y :: z :: (natDigits pos ++ ['T', 'e', 'r'])) := by
      rw [searchFirst_append_of_prefix_none pre _ hpreTer]
      exact searchFirst_cons_of_some
        (matchSubBody_exact suf hx hy hz (by decide) (by decide) (by decide) hds hdig)
    rw [show (String.mk (pre ++ '(' :: 'p' :: '.' :: x :: y :: z :: (natDigits pos ++ 'T' :: 'e' :: 'r' :: ')' :: suf))).data
        = pre ++ '(' :: 'p' :: '.' :: x :: y :: z :: (natDigits pos ++ 'T' :: 'e' :: 'r' :: ')' :: suf) from rfl,
      hsub]

/-- Witness for C6: the names `NM_000238.4(KCNH2):c.1600C>T (p.Arg534*)`
and `NM_000238.4(KCNH2):c.1600C>T (p.Arg534Ter)` both normalize to
`p.Arg534Ter`. -/
theorem parse_protein_change_stop_gain_witness :
    parse_protein_change
        (String.mk ("NM_000238.4(KCNH2):c.1600C>T ".data ++
          '(' :: 'p' :: '.' :: 'A' :: 'r' :: 'g' :: (natDigits 534 ++ '*' :: ')' :: []))) =
      some (String.mk ('p' :: '.' :: 'A' :: 'r' :: 'g' :: (natDigits 534 ++ ['T', 'e', 'r']))) ∧
    parse_protein_change
        (String.mk ("NM_000238.4(KCNH2):c.1600C>T ".data ++
          '(' :: 'p' :: '.' :: 'A' :: 'r' :: 'g' :: (natDigits 534 ++ 'T' :: 'e' :: 'r' :: ')' :: []))) =
      some (String.mk ('p' :: '.' :: 'A' :: 'r' :: 'g' :: (natDigits 534 ++ ['T', 'e', 'r']))) :=
  parse_protein_change_stop_gain 'A' 'r' 'g' 534 "NM_000238.4(KCNH2):c.1600C>T ".data []
    (by decide) (by decide) (by decide) (by decide) (by decide) (by decide) (by decide)

/-! ### C7 — position handling of the two normalization paths

Both paths do treat *malformed* position tokens as unparseable, but neither
path rejects non-positive integers: the regex `\\d+` accepts the digit `0`
and `int()` accepts `0` (and, in the compact path, a leading sign). -/

/-- C7 counterexample: a position token that is not a positive integer is
*not* treated as unparseable — `parse_protein_change` accepts position `0`
and emits `p.Ala0Val`, and the compact path of `fetch_alphamissense`
likewise accepts `A0V` (and even the negative position in `G-7V`). -/
theorem natDigits_zero : natDigits 0 = ['0'] := by
  rw [natDigits]
  decide

theorem natDigits_seven : natDigits 7 = ['7'] := by
  rw [natDigits]
  decide

theorem position_zero_accepted :
    parse_protein_change "(p.Ala0Val)" = some "p.Ala0Val" ∧
    amHgvsFromVarPart "A0V".data = some "p.Ala0Val" ∧
    amHgvsFromVarPart "G-7V".data = some "p.Gly-7Val" := by
  refine ⟨by decide, ?_, ?_⟩
  · show amHgvsFromVarPart ('A' :: (['0'] ++ ['V'])) = some "p.Ala0Val"
    unfold amHgvsFromVarPart
    rw [amParseVarPart_shape 'A' 'V' ['0'] (by decide),
      show pyInt ['0'] = some ((0 : Nat) : Int) from by decide]
    show some (amHgvs 'A' ((0 : Nat) : Int) 'V') = some "p.Ala0Val"
    unfold amHgvs
    rw [intDigits_natCast, natDigits_zero]
    decide
  · show amHgvsFromVarPart ('G' :: (['-', '7'] ++ ['V'])) = some "p.Gly-7Val"
    unfold amHgvsFromVarPart
    rw [amParseVarPart_shape 'G' 'V' ['-', '7'] (by decide),
      show pyInt ['-', '7'] = some (-((7 : Nat) : Int)) from by decide]
    show some (amHgvs 'G' (-((7 : Nat) : Int)) 'V') = some "p.Gly-7Val"
    unfold amHgvs intDigits
    rw [if_pos (by decide), show (-((7 : Nat) : Int)).natAbs = 7 from by decide,
      natDigits_seven]
    decide

/-- C7 (amended): both identity-normalization paths treat a malformed
position token as unparseable — `fetch_alphamissense` skips any record
whose middle segment fails `int()`, and `parse_protein_change` returns
`None` when the text after the three-letter ref code does not start with a
digit — never substituting position zero; however, neither path rejects
non-positive integer positions: a literal `0` position is accepted and
emitted verbatim by both paths (and the compact path accepts negative
positions). -/
theorem malformed_position_unparseable
    (r a : Char) (mid : List Char) (x y z c : Char) (rest : List Char)
    (hmid : pyInt mid = none)
    (hx : isAlphaCh x = true) (hy : isAlphaCh y = true) (hz : isAlphaCh z = true)
    (hc : isDigitCh c = false) (hcp : c ≠ '(') (hrest : '(' ∉ rest) :
    amHgvsFromVarPart (r :: (mid ++ [a])) = none ∧
    parse_protein_change (String.mk ('(' :: 'p' :: '.' :: x :: y :: z :: c :: rest)) = none ∧
    parse_protein_change "(p.Gly0Arg)" = some "p.Gly0Arg" := by
  refine ⟨?_, ?_, by decide⟩
  · cases mid with
    | nil => simp [amHgvsFromVarPart, amParseVarPart]
    | cons m ms =>
      unfold amHgvsFromVarPart
      rw [amParseVarPart_shape _ _ _ (by simp), hmid]
      rfl
  · unfold parse_protein_change
    have hnp : '(' ∉ ('p' :: '.' :: x :: y :: z :: c :: rest) := by
      have : '(' ∉ (c :: rest) := by
        intro hmem
        rcases List.mem_cons.mp hmem with h | h
        · exact hcp h.symm
        · exact hrest h
      exact @paren_not_mem_tail x y z [] (c :: rest) hx hy hz
        (fun d hd => absurd hd (List.not_mem_nil d)) this
    have hsub : searchFirst matchSubAt ('(' :: 'p' :: '.' :: x :: y :: z :: c :: rest) = none := by
      rw [searchFirst_cons_of_none
        (show matchSubAt ('(' :: 'p' :: '.' :: x :: y :: z :: c :: rest) = none
          from matchSubBody_bad_position rest hx hy hz hc)]
      exact searchFirst_none_of_no_paren (fun c' cs => matchSubAt_not_paren cs) hnp
    have hter : searchFirst matchTerAt ('(' :: 'p' :: '.' :: x :: y :: z :: c :: rest) = none := by
      rw [searchFirst_cons_of_none
        (show matchTerAt ('(' :: 'p' :: '.' :: x :: y :: z :: c :: rest) = none
          from matchTerBody_bad_position rest hx hy hz hc)]
      exact searchFirst_none_of_no_paren (fun c' cs => matchTerAt_not_paren cs) hnp
    rw [show (String.mk ('(' :: 'p' :: '.' :: x :: y :: z :: c :: rest)).data
        = '(' :: 'p' :: '.' :: x :: y :: z :: c :: rest from rfl, hsub, hter]

/-- Witness for C7: the compact code `AxV` is skipped and the clinical
annotation `(p.AlaXVal)` is unparseable. -/
theorem malformed_position_unparseable_witness :
    amHgvsFromVarPart ('A' :: (['x'] ++ ['V'])) = none ∧
    parse_protein_change (String.mk ('(' :: 'p' :: '.' :: 'A' :: 'l' :: 'a' :: 'X' :: "Val)".data)) = none ∧
    parse_protein_change "(p.Gly0Arg)" = some "p.Gly0Arg" :=
  malformed_position_unparseable 'A' 'V' ['x'] 'A' 'l' 'a' 'X' "Val)".data
    (by decide) (by decide) (by decide) (by decide) (by decide) (by decide) (by decide)

/-! ## `get_review_stars` (`fetchers/clinvar.py`) -/

/-- The fixed `REVIEW_STATUS_STARS` dict (keys already lowercase). -/
def REVIEW_STATUS_STARS : List (String × Nat) := [
  ("practice guideline", 4),
  ("reviewed by expert panel", 3),
  ("criteria provided, multiple submitters, no conflicts", 2),
  ("criteria provided, conflicting classifications", 1),
  ("criteria provided, single submitter", 1),
  ("no assertion for the individual variant", 0),
  ("no assertion criteria provided", 0),
  ("no classification for the single variant", 0),
  ("no classifications from unflagged records", 0),
  ("no classification provided", 0)]

/-- `str.lower` on the ASCII range (every table key and every ClinVar
review-status string is ASCII). -/
def lowerCh (c : Char) : Char :=
  if 65 ≤ c.toNat ∧ c.toNat ≤ 90 then Char.ofNat (c.toNat + 32) else c

def pyLower (s : String) : String := String.mk (s.data.map lowerCh)

/-- `get_review_stars(review_status)`:
`REVIEW_STATUS_STARS.get(review_status.lower(), 0)`. -/
def get_review_stars (review_status : String) : Nat :=
  (alookup REVIEW_STATUS_STARS (pyLower review_status)).getD 0

/-! ## The per-variant combination step of `fetch_gnomad`
(`fetchers/gnomad.py`, the loop body over `variants`) -/

/-- One gnomAD callset (`var["exome"]` / `var["genome"]`), post-JSON:
frequencies are floats-or-null, modelled as `Option ℚ`. -/
structure GnomadCallset where
  af : Option ℚ
  an : Option Int
  homozygote_count : Option Int
  populations : List (Option ℚ)

/-- Python `x or y` on a float-or-`None` field: both `None` and `0.0` are
falsy, so the left value is kept only when it is non-`None` and non-zero. -/
def pyOrQ (x y : Option ℚ) : Option ℚ :=
  match x with
  | some v => if v ≠ 0 then some v else y
  | none => y

def pyOrI (x y : Option Int) : Option Int :=
  match x with
  | some v => if v ≠ 0 then some v else y
  | none => y

/-- `var.get("exome") or {}`. -/
def emptyCallset : GnomadCallset := ⟨none, none, none, []⟩

structure GnomadRecord where
  gnomad_af : Option ℚ
  gnomad_af_popmax : Option ℚ
  gnomad_homozygotes : Int
  gnomad_an : Option Int

/-- The record yielded by `fetch_gnomad` for one variant:

```
exome = var.get("exome") or {}
genome = var.get("genome") or {}
af = exome.get("af") or genome.get("af")
an = exome.get("an") or genome.get("an")
homozygotes = (exome.get("homozygote_count") or 0) + (genome.get("homozygote_count") or 0)
af_popmax = 0.0
for pop_data in (exome.get("populations") or []) + (genome.get("populations") or []):
    pop_af = pop_data.get("af")
    if pop_af and pop_af > af_popmax: af_popmax = pop_af
yield { ..., "gnomad_af_popmax": af_popmax if af_popmax > 0 else None, ... }
```
-/
def combine_variant (exome genome : Option GnomadCallset) : GnomadRecord :=
  let e := exome.getD emptyCallset
  let g := genome.getD emptyCallset
  let af_popmax := (e.populations ++ g.populations).foldl
    (fun acc popAf =>
      match popAf with
      | some v => if v ≠ 0 ∧ v > acc then v else acc
      | none => acc) 0
  { gnomad_af := pyOrQ e.af g.af,
    gnomad_af_popmax := if af_popmax > 0 then some af_popmax else none,
    gnomad_homozygotes := e.homozygote_count.getD 0 + g.homozygote_count.getD 0,
    gnomad_an := pyOrI e.an g.an }

/-- The score extraction of `fetch_alphamissense`:
`score = float(row.get('am_pathogenicity', 0))`, with a `ValueError`
giving `score = None`.  The TSV field is modelled post-parse (`some q` for
a numeric field, `none` for a missing column); a missing column takes the
dict default `0` and therefore becomes the numeric score `0.0`. -/
def am_score (field : Option ℚ) : Option ℚ := some (field.getD 0)

/-! ## `predict_nmd_escape` (`fetchers/lof.py`) -/

/-- `predict_nmd_escape(truncation_position, last_exon)`; the float literal
`0.90` is modelled as the rational `9/10`. -/
def predict_nmd_escape (truncation_position : ℚ) (last_exon : Bool) : Bool :=
  if last_exon then true
  else if truncation_position > 9 / 10 then true
  else false

/-! ### C5 — `get_review_stars` is total, case-insensitive, and tabulated -/

theorem get_review_stars_le (s : String) : get_review_stars s ≤ 4 := by
  unfold get_review_stars
  cases h : alookup REVIEW_STATUS_STARS (pyLower s)
  · simp
  · rename_i v
    have htab : ∀ p ∈ REVIEW_STATUS_STARS, p.2 ≤ 4 := by decide
    simpa using htab _ (alookup_mem h)

/-- C5: `get_review_stars` is a total function on strings returning an
integer in {0,...,4}; it depends only on the lowercased input
(case-insensitive matching); every string whose lowercasing is not a table
key — in particular every unrecognized string — maps to 0; and on the fixed
table it returns practice guideline → 4, reviewed by expert panel → 3,
criteria provided/multiple submitters/no conflicts → 2, conflicting
classifications → 1, single submitter → 1, and every
no-assertion/no-classification status → 0. -/
theorem get_review_stars_spec :
    (∀ s : String, get_review_stars s ≤ 4) ∧
    (∀ s t : String, pyLower s = pyLower t → get_review_stars s = get_review_stars t) ∧
    (∀ s : String, alookup REVIEW_STATUS_STARS (pyLower s) = none → get_review_stars s = 0) ∧
    get_review_stars "practice guideline" = 4 ∧
    get_review_stars "reviewed by expert panel" = 3 ∧
    get_review_stars "criteria provided, multiple submitters, no conflicts" = 2 ∧
    get_review_stars "criteria provided, conflicting classifications" = 1 ∧
    get_review_stars "criteria provided, single submitter" = 1 ∧
    get_review_stars "no assertion for the individual variant" = 0 ∧
    get_review_stars "no assertion criteria provided" = 0 ∧
    get_review_stars "no classification for the single variant" = 0 ∧
    get_review_stars "no classifications from unflagged records" = 0 ∧
    get_review_stars "no classification provided" = 0 ∧
    get_review_stars "this status is not in the table" = 0 := by
  refine ⟨get_review_stars_le, ?_, ?_, by decide, by decide, by decide, by decide, by decide,
    by decide, by decide, by decide, by decide, by decide, by decide⟩
  · intro s t h
    unfold get_review_stars
    rw [h]
  · intro s h
    unfold get_review_stars
    rw [h]
    rfl

/-- Witness for C5: mixed-case input matches its lowercase form, the table
value for expert-panel review is 3, and the empty string maps to 0. -/
theorem get_review_stars_spec_witness :
    get_review_stars "Reviewed By Expert Panel" = get_review_stars "reviewed by expert panel" ∧
    get_review_stars "reviewed by expert panel" = 3 ∧
    get_review_stars "" = 0 :=
  ⟨get_review_stars_spec.2.1 "Reviewed By Expert Panel" "reviewed by expert panel" (by decide),
   get_review_stars_spec.2.2.2.2.1,
   get_review_stars_spec.2.2.1 "" (by decide)⟩

/-! ### C8 — a supplied `0.0` score is conflated with an absent score -/

/-- C8 evidence: the adapter-to-store pipeline conflates an explicitly
supplied `0.0` score with an absent score.  `fetch_gnomad` yields
`gnomad_af = None` for a variant whose exome callset explicitly supplies
`af = 0.0` (and no genome data); with genome data present it silently
replaces the exome's explicit `0.0` by the genome value, contradicting the
code's own "prefer exome if available" comment; and `fetch_alphamissense`
turns a missing `am_pathogenicity` column into the explicit score `0.0`
via the dict-get default. -/
theorem gnomad_zero_af_conflated :
    (combine_variant (some ⟨some 0, some 100, some 0, [some 0]⟩) none).gnomad_af = none ∧
    (combine_variant (some ⟨some 0, some 100, some 0, []⟩)
        (some ⟨some 1, some 50, some 0, []⟩)).gnomad_af = some 1 ∧
    am_score none = some 0 := by
  refine ⟨rfl, rfl, rfl⟩

/-! ### C9 — NMD escape is a pure disjunction -/

/-- C9: `predict_nmd_escape(f, b)` is true exactly when `b` is true or `f`
exceeds `0.90` — a disjunction of two independently sufficient conditions —
and in particular `predict_nmd_escape(0.5, True) = True`,
`predict_nmd_escape(0.95, False) = True`,
`predict_nmd_escape(0.5, False) = False`. -/
theorem predict_nmd_escape_disjunction :
    (∀ (t : ℚ) (b : Bool), predict_nmd_escape t b = (b || decide (t > 9 / 10))) ∧
    predict_nmd_escape (1 / 2) true = true ∧
    predict_nmd_escape (95 / 100) false = true ∧
    predict_nmd_escape (1 / 2) false = false := by
  refine ⟨?_, ?_, ?_, ?_⟩
  · intro t b
    unfold predict_nmd_escape
    cases b
    · by_cases h : t > 9 / 10
      · simp [h]
      · simp [h]
    · simp
  · norm_num [predict_nmd_escape]
  · norm_num [predict_nmd_escape]
  · norm_num [predict_nmd_escape]

end VariantFeatures
